import Mathlib

/-!
Verification of the WalletBuddy service core: the budget/ledger data model
and the daily-allowance computation, embedded from the two server variants
(the flat-file variant `src/server.mjs` and the hosted variant
`src/unnamed/part_000`).

Modelling choices:
* calendar dates at day granularity are integers (a day number); `dayjs`
  `diff(_, 'day')` on day-aligned dates is integer subtraction, and
  `add(1, 'day')` is `+ 1`;
* JS numbers (money amounts) are rationals `ℚ`;
* `Number(x.toFixed(2))` is rounding to 2 decimal places, i.e.
  `round (100 * x) / 100` (ties round up, as in the ECMAScript `toFixed`
  specification, matching Mathlib's `round = ⌊x + 1/2⌋`);
* `Array.prototype.reduce((sum, x) => sum + f x, 0)` is `sumBy`;
* the `while (current.isBefore(parsedDate, 'day'))` loop is the fuel
  recursion `walk` with fuel `(d - start).toNat`: the fuel is positive
  exactly when `current < d`, i.e. exactly when the loop body runs.
-/

/-- One record of the per-user budget config
(`{ start_money, start_date, end_money, end_date }`). -/
structure Config where
  start_money : ℚ
  start_date : ℤ
  end_money : ℚ
  end_date : ℤ
deriving DecidableEq

/-- A stored transaction record.  JS records are free-form, so the record
carries both spellings of the income flag: the flat-file variant reads
`t.isIncome`, the hosted variant reads `t.is_income`; a field the client did
not supply is `undefined`, which is falsy, hence `Bool` with `false` for
absent. -/
structure Transaction where
  userId : String
  transactionid : String
  amount : ℚ
  isIncome : Bool
  is_income : Bool
deriving DecidableEq

/-- A stored spending record (`{ userId, spendingid, date, amount }`). -/
structure Spending where
  userId : String
  spendingid : String
  date : ℤ
  amount : ℚ
deriving DecidableEq

/-- Embedding of `l.reduce((sum, x) => sum + f(x), 0)`. -/
def sumBy (l : List α) (f : α → ℚ) : ℚ :=
  l.foldl (fun s x => s + f x) 0

/-- Net balance of the flat-file variant (`server.mjs` lines 222-225):
`start_money - end_money` plus the signed sum over the user's transactions,
income judged by `t.isIncome`. -/
def netBalance (cfg : Config) (txs : List Transaction) (user : String) : ℚ :=
  cfg.start_money - cfg.end_money +
    sumBy (txs.filter (fun t => t.userId == user))
      (fun t => if t.isIncome then t.amount else -t.amount)

/-- Net balance of the hosted variant (`part_000` lines 229-230): the rows
are already filtered by `user_id` in the store query, and income is judged
by `t.is_income`. -/
def netBalanceHosted (cfg : Config) (txs : List Transaction) : ℚ :=
  cfg.start_money - cfg.end_money +
    sumBy txs (fun t => if t.is_income then t.amount else -t.amount)

/-- Computes `spentToday` of the flat-file variant: the summed amounts of the user's
spendings dated on day `c` (`server.mjs` lines 230-232). -/
def spentOn (sps : List Spending) (user : String) (c : ℤ) : ℚ :=
  sumBy (sps.filter (fun s => s.userId == user && s.date == c))
    (fun s => s.amount)

/-- Computes `spentToday` of the hosted variant: rows are pre-filtered by `user_id`,
so only the day is tested (`part_000` lines 235-236). -/
def spentOnHosted (sps : List Spending) (c : ℤ) : ℚ :=
  sumBy (sps.filter (fun s => s.date == c))
    (fun s => s.amount)

/-- The day-by-day walk (`server.mjs` lines 227-241 and `part_000` lines
232-245, identical): while `current < d`, compute the day's spending, stop
early if `end - current <= 0`, compute (and discard) `todayAllowance`,
deduct the day's spending, advance one day.  `fuel` is `(d - current).toNat`
at every call, so `fuel = 0` exactly when the loop condition
`current.isBefore(parsedDate)` is false. -/
def walk (spent : ℤ → ℚ) (endD : ℤ) : ℕ → ℤ → ℚ → ℚ
  | 0, _, m => m
  | n + 1, c, m =>
    if endD - c ≤ 0 then m
    else walk spent endD n (c + 1) (m - spent c)

/-- Whether the early-stop guard `daysLeft <= 0` inside the walk is ever
taken, with the same fuel discipline as `walk`. -/
def walkBreaks (endD : ℤ) : ℕ → ℤ → Bool
  | 0, _ => false
  | n + 1, c =>
    if endD - c ≤ 0 then true
    else walkBreaks endD n (c + 1)

/-- The `remainingMoney` value after the walk has run from `start_date` up to the
query date `d`. -/
def walkedBalance (cfg : Config) (txs : List Transaction)
    (sps : List Spending) (user : String) (d : ℤ) : ℚ :=
  walk (spentOn sps user) cfg.end_date (d - cfg.start_date).toNat
    cfg.start_date (netBalance cfg txs user)

/-- Version of `walkedBalance` for the hosted variant. -/
def walkedBalanceHosted (cfg : Config) (txs : List Transaction)
    (sps : List Spending) (d : ℤ) : ℚ :=
  walk (spentOnHosted sps) cfg.end_date (d - cfg.start_date).toNat
    cfg.start_date (netBalanceHosted cfg txs)

/-- Rounding to 2 decimal places: `Number(x.toFixed(2))`. -/
def round2 (x : ℚ) : ℚ :=
  (round (100 * x) : ℤ) / 100

/-- The `finalAllowance` value before rounding: the walked balance divided by
`remainingDays = (end_date - d) + 1`. -/
def allowanceRaw (cfg : Config) (txs : List Transaction)
    (sps : List Spending) (user : String) (d : ℤ) : ℚ :=
  walkedBalance cfg txs sps user d / ((cfg.end_date - d + 1 : ℤ) : ℚ)

/-- The rounded allowance the flat-file variant serialises. -/
def allowanceValue (cfg : Config) (txs : List Transaction)
    (sps : List Spending) (user : String) (d : ℤ) : ℚ :=
  round2 (allowanceRaw cfg txs sps user d)

/-- The `finalAllowance` value before rounding, hosted variant. -/
def allowanceRawHosted (cfg : Config) (txs : List Transaction)
    (sps : List Spending) (d : ℤ) : ℚ :=
  walkedBalanceHosted cfg txs sps d / ((cfg.end_date - d + 1 : ℤ) : ℚ)

/-- The rounded allowance the hosted variant serialises. -/
def allowanceValueHosted (cfg : Config) (txs : List Transaction)
    (sps : List Spending) (d : ℤ) : ℚ :=
  round2 (allowanceRawHosted cfg txs sps d)

/-- The error outcomes of the daily-allowance endpoint. -/
inductive DAError where
  | configMissing
  | dateOutOfRange
deriving DecidableEq

instance {ε α : Type} [DecidableEq ε] [DecidableEq α] :
    DecidableEq (Except ε α)
  | .error e, .error f => decidable_of_iff (e = f) (by simp)
  | .error _, .ok _ => .isFalse (by simp)
  | .ok _, .error _ => .isFalse (by simp)
  | .ok a, .ok b => decidable_of_iff (a = b) (by simp)

/-- The `GET /daily-allowance/:date` handler of the flat-file variant
(`server.mjs` lines 202-249): missing config → `Config not set`; date
before `start` or after `end` → `Date is out of bounds`; otherwise the
rounded allowance. -/
def handleDailyAllowance (cfg? : Option Config) (txs : List Transaction)
    (sps : List Spending) (user : String) (d : ℤ) : Except DAError ℚ :=
  match cfg? with
  | none => .error .configMissing
  | some cfg =>
    if d < cfg.start_date ∨ d > cfg.end_date then .error .dateOutOfRange
    else .ok (allowanceValue cfg txs sps user d)

/-- The `GET /daily-allowance/:date` handler of the hosted variant
(`part_000` lines 198-251); the transaction and spending rows it receives
are the store's rows filtered by `user_id`. -/
def handleDailyAllowanceHosted (cfg? : Option Config)
    (txs : List Transaction) (sps : List Spending) (user : String)
    (d : ℤ) : Except DAError ℚ :=
  match cfg? with
  | none => .error .configMissing
  | some cfg =>
    if d < cfg.start_date ∨ d > cfg.end_date then .error .dateOutOfRange
    else .ok (allowanceValueHosted cfg
      (txs.filter (fun t => t.userId == user))
      (sps.filter (fun s => s.userId == user)) d)

/-- Outcome of a delete endpoint. -/
inductive DelResult where
  | ok
  | notFound
deriving DecidableEq

/-- The `DELETE /transactions/:id` handler of the flat-file variant
(`server.mjs` lines 161-172): the store is re-assigned to the list with
matching records removed; if the length did not change the handler answers
404 (`Transaction not found`).  Returns the outcome together with the
store contents after the request. -/
def deleteTransaction (store : List Transaction) (user idv : String) :
    DelResult × List Transaction :=
  let filtered := store.filter
    (fun t => !(t.transactionid == idv && t.userId == user))
  if filtered.length = store.length then (.notFound, filtered)
  else (.ok, filtered)

/-- The `DELETE /spendings/:id` handler of the flat-file variant
(`server.mjs` lines 188-199). -/
def deleteSpending (store : List Spending) (user idv : String) :
    DelResult × List Spending :=
  let filtered := store.filter
    (fun s => !(s.spendingid == idv && s.userId == user))
  if filtered.length = store.length then (.notFound, filtered)
  else (.ok, filtered)

/-- A value held in a free-form JS record field. -/
inductive Val where
  | str (s : String)
  | num (q : ℚ)
  | boolean (b : Bool)
deriving DecidableEq

/-- A free-form JS record: a partial map from field names to values. -/
def JSRecord : Type := String → Option Val

/-- Spread update of a record r with key k and value v: the explicit field overrides whatever `r` holds. -/
def setField (r : JSRecord) (k : String) (v : Val) : JSRecord :=
  fun k' => if k' = k then some v else r k'

/-- The record stored by `POST /transactions` in the flat-file variant
(`server.mjs` lines 148-154):
`{ ...req.body, transactionid, userId: req.user.userId }`. -/
def mkStoredTransaction (body : JSRecord) (tid user : String) : JSRecord :=
  setField (setField body ("transactionid") (.str tid)) ("userId") (.str user)

/-- The record stored by `POST /spendings` in the flat-file variant
(`server.mjs` lines 175-181). -/
def mkStoredSpending (body : JSRecord) (sid user : String) : JSRecord :=
  setField (setField body ("spendingid") (.str sid)) ("userId") (.str user)

/-- The row inserted by `POST /transactions` and `POST /spendings` in the
hosted variant (`part_000` lines 140-145 and 169-174):
`{ ...req.body, id: uuidv4(), user_id: req.user.userId }`. -/
def mkHostedRecord (body : JSRecord) (rid user : String) : JSRecord :=
  setField (setField body ("id") (.str rid)) ("user_id") (.str user)

/-- The total amount a day range contributes: the direct, loop-free
computation the spec describes ("deduct days already spent between
`start_date` and `d`"): the summed amounts of the user's spendings whose
date lies in `[lo, hi)`. -/
def directSpent (sps : List Spending) (user : String) (lo hi : ℤ) : ℚ :=
  sumBy (sps.filter
      (fun s => s.userId == user && lo ≤ s.date && s.date < hi))
    (fun s => s.amount)

/-- Sum of `spent` over the `n` days starting at `c`. -/
def sumRange (spent : ℤ → ℚ) : ℕ → ℤ → ℚ
  | 0, _ => 0
  | n + 1, c => spent c + sumRange spent n (c + 1)

/-! ### Helper lemmas -/

lemma foldl_add_eq (f : α → ℚ) (l : List α) : ∀ a : ℚ,
    List.foldl (fun s x => s + f x) a l = a + sumBy l f := by
  induction l with
  | nil => intro a; simp [sumBy]
  | cons x l ih =>
    intro a
    have h1 : List.foldl (fun s y => s + f y) a (x :: l) =
        List.foldl (fun s y => s + f y) (a + f x) l := rfl
    have h2 : sumBy (x :: l) f =
        List.foldl (fun s y => s + f y) (0 + f x) l := rfl
    rw [h1, ih, h2, ih]
    ring

lemma sumBy_cons (f : α → ℚ) (x : α) (l : List α) :
    sumBy (x :: l) f = f x + sumBy l f := by
  have h : sumBy (x :: l) f =
      List.foldl (fun s y => s + f y) (0 + f x) l := rfl
  rw [h, foldl_add_eq]
  ring

lemma spentOn_cons (s : Spending) (sps : List Spending) (u : String)
    (c : ℤ) :
    spentOn (s :: sps) u c =
      (if s.userId == u && s.date == c then s.amount else 0) +
        spentOn sps u c := by
  by_cases h : (s.userId == u && s.date == c) = true
  · simp [spentOn, List.filter_cons, h, sumBy_cons]
  · simp [spentOn, List.filter_cons, h]

lemma directSpent_cons (s : Spending) (sps : List Spending) (u : String)
    (lo hi : ℤ) :
    directSpent (s :: sps) u lo hi =
      (if s.userId == u && lo ≤ s.date && s.date < hi then s.amount
        else 0) + directSpent sps u lo hi := by
  by_cases h : (s.userId == u && decide (lo ≤ s.date) &&
      decide (s.date < hi)) = true
  · simp [directSpent, List.filter_cons, h, sumBy_cons]
  · simp [directSpent, List.filter_cons, h]

lemma netBalance_cons (cfg : Config) (t : Transaction)
    (txs : List Transaction) (u : String) :
    netBalance cfg (t :: txs) u =
      netBalance cfg txs u +
        (if t.userId == u then
          (if t.isIncome then t.amount else -t.amount) else 0) := by
  by_cases h : (t.userId == u) = true
  · simp only [netBalance, List.filter_cons, h, if_true, sumBy_cons]
    ring
  · simp only [netBalance, List.filter_cons, h]
    simp

lemma walk_congr (f g : ℤ → ℚ) (e : ℤ) (h : ∀ x, f x = g x) :
    ∀ (n : ℕ) (c : ℤ) (m : ℚ), walk f e n c m = walk g e n c m := by
  intro n
  induction n with
  | zero => intro c m; rfl
  | succ n ih =>
    intro c m
    by_cases hc : e - c ≤ 0
    · simp [walk, hc]
    · simp only [walk, if_neg hc, h c]
      exact ih (c + 1) (m - g c)

lemma walk_add (f : ℤ → ℚ) (e : ℤ) :
    ∀ (n : ℕ) (c : ℤ) (m a : ℚ),
      walk f e n c (m + a) = walk f e n c m + a := by
  intro n
  induction n with
  | zero => intro c m a; rfl
  | succ n ih =>
    intro c m a
    by_cases hc : e - c ≤ 0
    · simp [walk, hc]
    · simp only [walk, if_neg hc]
      have h : m + a - f c = (m - f c) + a := by ring
      rw [h, ih]

lemma walk_zero_spent (f : ℤ → ℚ) (e : ℤ) (h : ∀ x, f x = 0) :
    ∀ (n : ℕ) (c : ℤ) (m : ℚ), walk f e n c m = m := by
  intro n
  induction n with
  | zero => intro c m; rfl
  | succ n ih =>
    intro c m
    by_cases hc : e - c ≤ 0
    · simp [walk, hc]
    · simp only [walk, if_neg hc, h c, sub_zero]
      exact ih (c + 1) m

lemma walk_eq_sumRange (f : ℤ → ℚ) (e d : ℤ) (hde : d ≤ e) :
    ∀ (n : ℕ) (c : ℤ) (m : ℚ), (n : ℤ) = d - c →
      walk f e n c m = m - sumRange f n c := by
  intro n
  induction n with
  | zero => intro c m h; simp [walk, sumRange]
  | succ n ih =>
    intro c m h
    have hg : ¬(e - c ≤ 0) := by omega
    simp only [walk, sumRange, if_neg hg]
    rw [ih (c + 1) (m - f c) (by push_cast at h ⊢; omega)]
    ring

lemma walkBreaks_eq_false (e : ℤ) :
    ∀ (n : ℕ) (c : ℤ), (n : ℤ) ≤ e - c → walkBreaks e n c = false := by
  intro n
  induction n with
  | zero => intro c _; rfl
  | succ n ih =>
    intro c h
    have hg : ¬(e - c ≤ 0) := by push_cast at h; omega
    simp only [walkBreaks, if_neg hg]
    exact ih (c + 1) (by push_cast at h ⊢; omega)

lemma sumRange_zero_fun (f : ℤ → ℚ) (h : ∀ x, f x = 0) :
    ∀ (n : ℕ) (c : ℤ), sumRange f n c = 0 := by
  intro n
  induction n with
  | zero => intro c; rfl
  | succ n ih =>
    intro c
    simp only [sumRange, h c, ih (c + 1), add_zero]

lemma sumRange_add_fun (f g h : ℤ → ℚ) (hf : ∀ x, f x = g x + h x) :
    ∀ (n : ℕ) (c : ℤ),
      sumRange f n c = sumRange g n c + sumRange h n c := by
  intro n
  induction n with
  | zero => intro c; simp [sumRange]
  | succ n ih =>
    intro c
    simp only [sumRange, hf c, ih (c + 1)]
    ring

lemma sumRange_indicator (b : Bool) (t : ℤ) (a : ℚ) :
    ∀ (n : ℕ) (c : ℤ),
      sumRange (fun x => if b && t == x then a else 0) n c =
        if b && c ≤ t && t < c + (n : ℤ) then a else 0 := by
  intro n
  induction n with
  | zero =>
    intro c
    refine (Eq.symm (if_neg ?_)).trans rfl
    intro h
    simp only [Bool.and_eq_true, decide_eq_true_eq] at h
    omega
  | succ n ih =>
    intro c
    simp only [sumRange, ih (c + 1)]
    cases b with
    | false => simp
    | true =>
      simp only [Bool.true_and, Bool.and_eq_true, decide_eq_true_eq,
        beq_iff_eq]
      push_cast
      split_ifs <;> first | ring1 | (exfalso; omega)

lemma sumRange_spentOn (sps : List Spending) (u : String) :
    ∀ (n : ℕ) (c : ℤ),
      sumRange (spentOn sps u) n c = directSpent sps u c (c + (n : ℤ)) := by
  induction sps with
  | nil =>
    intro n c
    rw [sumRange_zero_fun (spentOn [] u) (fun x => rfl) n c]
    rfl
  | cons s sps ih =>
    intro n c
    rw [sumRange_add_fun (spentOn (s :: sps) u)
        (fun x => if s.userId == u && s.date == x then s.amount else 0)
        (spentOn sps u) (fun x => spentOn_cons s sps u x),
      sumRange_indicator, ih, directSpent_cons]

lemma walkedBalance_eq (cfg : Config) (txs : List Transaction)
    (sps : List Spending) (u : String) (d : ℤ)
    (h1 : cfg.start_date ≤ d) (h2 : d ≤ cfg.end_date) :
    walkedBalance cfg txs sps u d =
      netBalance cfg txs u - directSpent sps u cfg.start_date d := by
  unfold walkedBalance
  rw [walk_eq_sumRange (spentOn sps u) cfg.end_date d h2 _ _ _ (by omega),
    sumRange_spentOn]
  have h : cfg.start_date + ((d - cfg.start_date).toNat : ℤ) = d := by
    omega
  rw [h]

lemma handle_eq_direct (cfg : Config) (txs : List Transaction)
    (sps : List Spending) (u : String) (d : ℤ)
    (h1 : cfg.start_date ≤ d) (h2 : d ≤ cfg.end_date) :
    handleDailyAllowance (some cfg) txs sps u d =
      .ok (round2 ((netBalance cfg txs u -
        directSpent sps u cfg.start_date d) /
          ((cfg.end_date - d + 1 : ℤ) : ℚ))) := by
  have h : handleDailyAllowance (some cfg) txs sps u d =
      if d < cfg.start_date ∨ d > cfg.end_date then .error .dateOutOfRange
      else .ok (allowanceValue cfg txs sps u d) := rfl
  rw [h, if_neg (by omega), allowanceValue, allowanceRaw,
    walkedBalance_eq cfg txs sps u d h1 h2]

lemma round2_mono {x y : ℚ} (h : x ≤ y) : round2 x ≤ round2 y := by
  unfold round2
  have hr : round (100 * x) ≤ round (100 * y) := by
    rw [round_eq, round_eq]
    exact Int.floor_le_floor (by linarith)
  have := (div_le_div_iff_of_pos_right (c := (100 : ℚ)) (by norm_num)).mpr
    (Int.cast_le.mpr hr)
  exact this

lemma round2_hundredth (k : ℤ) : round2 ((k : ℚ) / 100) = (k : ℚ) / 100 := by
  unfold round2
  have h : (100 : ℚ) * ((k : ℚ) / 100) = (k : ℚ) := by
    field_simp
  rw [h, round_intCast]

lemma round2_eq_of (x : ℚ) (k : ℤ) (hlo : (k : ℚ) ≤ 100 * x + 1 / 2)
    (hhi : 100 * x + 1 / 2 < (k : ℚ) + 1) : round2 x = (k : ℚ) / 100 := by
  unfold round2
  rw [round_eq]
  have h : ⌊100 * x + 1 / 2⌋ = k :=
    Int.floor_eq_iff.mpr ⟨hlo, by linarith⟩
  rw [h]

lemma sumBy_congr (l : List α) (f g : α → ℚ)
    (h : ∀ x ∈ l, f x = g x) : sumBy l f = sumBy l g := by
  induction l with
  | nil => rfl
  | cons x l ih =>
    rw [sumBy_cons, sumBy_cons, h x (by simp),
      ih (fun y hy => h y (by simp [hy]))]

lemma walkedBalance_at_start (cfg : Config) (txs : List Transaction)
    (sps : List Spending) (u : String) :
    walkedBalance cfg txs sps u cfg.start_date = netBalance cfg txs u := by
  unfold walkedBalance
  have h : (cfg.start_date - cfg.start_date).toNat = 0 := by omega
  rw [h]
  rfl

lemma walkedBalanceHosted_at_start (cfg : Config)
    (txs : List Transaction) (sps : List Spending) :
    walkedBalanceHosted cfg txs sps cfg.start_date =
      netBalanceHosted cfg txs := by
  unfold walkedBalanceHosted
  have h : (cfg.start_date - cfg.start_date).toNat = 0 := by omega
  rw [h]
  rfl

/-! ### Claims -/

/-- C1: for every config and every query date `d` with
`start_date ≤ d ≤ end_date`, when the user has no transactions and no
spendings, the daily-allowance computation returns
`(start_money - end_money) / ((end_date - d) + 1)`, rounded to 2 decimal
places. -/
theorem claim_c1 (cfg : Config) (u : String) (d : ℤ)
    (h1 : cfg.start_date ≤ d) (h2 : d ≤ cfg.end_date) :
    handleDailyAllowance (some cfg) [] [] u d =
      .ok (round2 ((cfg.start_money - cfg.end_money) /
        ((cfg.end_date - d + 1 : ℤ) : ℚ))) := by
  rw [handle_eq_direct cfg [] [] u d h1 h2]
  have h3 : netBalance cfg [] u = cfg.start_money - cfg.end_money := by
    simp [netBalance, sumBy]
  have h4 : directSpent [] u cfg.start_date d = 0 := rfl
  rw [h3, h4, sub_zero]

theorem claim_c1_witness :
    ((0 : ℤ) ≤ 4 ∧ (4 : ℤ) ≤ 9) ∧
    handleDailyAllowance (some ⟨1000, 0, 0, 9⟩) [] [] "u" 4 =
      .ok (round2 ((1000 - 0) / ((9 - 4 + 1 : ℤ) : ℚ))) :=
  ⟨⟨by decide, by decide⟩,
    claim_c1 ⟨1000, 0, 0, 9⟩ "u" 4 (by decide) (by decide)⟩

/-- C2: the daily-allowance operation (with a config present) fails with
the boundary error `dateOutOfRange` iff `d < start_date` or
`d > end_date`; for `d` inside the inclusive range it returns a number,
in both backend variants. -/
theorem claim_c2 (cfg : Config) (txs : List Transaction)
    (sps : List Spending) (u : String) (d : ℤ) :
    (handleDailyAllowance (some cfg) txs sps u d =
        .error .dateOutOfRange ↔
      (d < cfg.start_date ∨ d > cfg.end_date)) ∧
    ((cfg.start_date ≤ d ∧ d ≤ cfg.end_date) →
      handleDailyAllowance (some cfg) txs sps u d =
        .ok (allowanceValue cfg txs sps u d)) ∧
    (handleDailyAllowanceHosted (some cfg) txs sps u d =
        .error .dateOutOfRange ↔
      (d < cfg.start_date ∨ d > cfg.end_date)) := by
  have hflat : handleDailyAllowance (some cfg) txs sps u d =
      if d < cfg.start_date ∨ d > cfg.end_date then .error .dateOutOfRange
      else .ok (allowanceValue cfg txs sps u d) := rfl
  have hhost : handleDailyAllowanceHosted (some cfg) txs sps u d =
      if d < cfg.start_date ∨ d > cfg.end_date then .error .dateOutOfRange
      else .ok (allowanceValueHosted cfg
        (txs.filter (fun t => t.userId == u))
        (sps.filter (fun s => s.userId == u)) d) := rfl
  by_cases h : d < cfg.start_date ∨ d > cfg.end_date
  · rw [hflat, hhost, if_pos h, if_pos h]
    exact ⟨⟨fun _ => h, fun _ => rfl⟩,
      fun hin => absurd hin (by omega),
      ⟨fun _ => h, fun _ => rfl⟩⟩
  · rw [hflat, hhost, if_neg h, if_neg h]
    exact ⟨⟨fun hc => absurd hc (by simp), fun hd => absurd hd h⟩,
      fun _ => rfl,
      ⟨fun hc => absurd hc (by simp), fun hd => absurd hd h⟩⟩

theorem claim_c2_witness :
    handleDailyAllowance (some ⟨1000, 0, 0, 9⟩) [] [] "u" 12 =
      .error .dateOutOfRange ∧
    handleDailyAllowance (some ⟨1000, 0, 0, 9⟩) [] [] "u" 4 =
      .ok (allowanceValue ⟨1000, 0, 0, 9⟩ [] [] "u" 4) :=
  ⟨(claim_c2 ⟨1000, 0, 0, 9⟩ [] [] "u" 12).1.mpr (by decide),
    (claim_c2 ⟨1000, 0, 0, 9⟩ [] [] "u" 4).2.1 ⟨by decide, by decide⟩⟩

/-- C6: under the boundary check (`start_date ≤ d ≤ end_date`),
`remaining_days = (end_date - d) + 1` is at least 1 and the final divisor
is nonzero, and the early-stop guard `daysLeft ≤ 0` inside the walk is
never taken. -/
theorem claim_c6 (cfg : Config) (d : ℤ)
    (h1 : cfg.start_date ≤ d) (h2 : d ≤ cfg.end_date) :
    1 ≤ cfg.end_date - d + 1 ∧
    ((cfg.end_date - d + 1 : ℤ) : ℚ) ≠ 0 ∧
    walkBreaks cfg.end_date (d - cfg.start_date).toNat cfg.start_date =
      false := by
  refine ⟨by omega, Int.cast_ne_zero.mpr (by omega), ?_⟩
  exact walkBreaks_eq_false cfg.end_date _ cfg.start_date (by omega)

theorem claim_c6_witness :
    ((0 : ℤ) ≤ 9 ∧ (9 : ℤ) ≤ 9) ∧
    (1 ≤ (9 : ℤ) - 9 + 1 ∧ (((9 : ℤ) - 9 + 1 : ℤ) : ℚ) ≠ 0 ∧
      walkBreaks 9 ((9 : ℤ) - 0).toNat 0 = false) :=
  ⟨⟨by decide, by decide⟩,
    claim_c6 ⟨1000, 0, 0, 9⟩ 9 (by decide) (by decide)⟩

/-- C7: for every valid input the day-by-day walk is observationally
equivalent to the direct computation
`net_balance - Σ (amounts of the user's spendings dated in [start_date, d))`
divided by the remaining days: the per-day `todayAllowance` is discarded
and only the running balance deduction affects the result. -/
theorem claim_c7 (cfg : Config) (txs : List Transaction)
    (sps : List Spending) (u : String) (d : ℤ)
    (h1 : cfg.start_date ≤ d) (h2 : d ≤ cfg.end_date) :
    handleDailyAllowance (some cfg) txs sps u d =
      .ok (round2 ((netBalance cfg txs u -
        directSpent sps u cfg.start_date d) /
          ((cfg.end_date - d + 1 : ℤ) : ℚ))) :=
  handle_eq_direct cfg txs sps u d h1 h2

theorem claim_c7_witness :
    ((0 : ℤ) ≤ 4 ∧ (4 : ℤ) ≤ 9) ∧
    handleDailyAllowance (some ⟨1000, 0, 0, 9⟩) []
        [⟨"u", "s1", 1, 50⟩] "u" 4 =
      .ok (round2 ((netBalance ⟨1000, 0, 0, 9⟩ [] "u" -
        directSpent [⟨"u", "s1", 1, 50⟩] "u" 0 4) /
          ((9 - 4 + 1 : ℤ) : ℚ))) :=
  ⟨⟨by decide, by decide⟩,
    claim_c7 ⟨1000, 0, 0, 9⟩ [] [⟨"u", "s1", 1, 50⟩] "u" 4
      (by decide) (by decide)⟩

/-- C3, counterexample: a Spending dated strictly before `d` (and owned by
the querying user) but before `start_date` does not reduce the computed
balance at all, although its amount is nonzero, so the claim as stated
fails. -/
theorem claim_c3_counterexample :
    Spending.date ⟨"u", "s1", 0, 5⟩ < 2 ∧
    Spending.userId ⟨"u", "s1", 0, 5⟩ = "u" ∧
    walkedBalance ⟨0, 1, 0, 3⟩ [] [⟨"u", "s1", 0, 5⟩] "u" 2 =
      walkedBalance ⟨0, 1, 0, 3⟩ [] [] "u" 2 ∧
    handleDailyAllowance (some ⟨0, 1, 0, 3⟩) [] [⟨"u", "s1", 0, 5⟩] "u" 2 =
      handleDailyAllowance (some ⟨0, 1, 0, 3⟩) [] [] "u" 2 ∧
    Spending.amount ⟨"u", "s1", 0, 5⟩ ≠ 0 := by
  refine ⟨by decide, rfl, ?_, ?_, by norm_num⟩
  · rw [walkedBalance_eq ⟨0, 1, 0, 3⟩ [] [⟨"u", "s1", 0, 5⟩] "u" 2
        (by decide) (by decide),
      walkedBalance_eq ⟨0, 1, 0, 3⟩ [] [] "u" 2 (by decide) (by decide)]
    norm_num [directSpent, sumBy, List.filter]
  · rw [handle_eq_direct ⟨0, 1, 0, 3⟩ [] [⟨"u", "s1", 0, 5⟩] "u" 2
        (by decide) (by decide),
      handle_eq_direct ⟨0, 1, 0, 3⟩ [] [] "u" 2 (by decide) (by decide)]
    norm_num [directSpent, sumBy, List.filter]

/-- C3, amended: for a valid query date `d`, a Spending of the querying
user dated in `[start_date, d)` reduces the computed balance by exactly
its amount (hence lowers the pre-rounding allowance by
`amount / remaining_days` and does not increase the rounded result); a
Spending dated before `start_date` or on/after `d` leaves the balance and
the result unchanged. -/
theorem claim_c3_amended (cfg : Config) (txs : List Transaction)
    (sps : List Spending) (s : Spending) (u : String) (d : ℤ)
    (h1 : cfg.start_date ≤ d) (h2 : d ≤ cfg.end_date)
    (hu : s.userId = u) (ha : 0 ≤ s.amount) :
    ((cfg.start_date ≤ s.date ∧ s.date < d) →
      walkedBalance cfg txs (s :: sps) u d =
        walkedBalance cfg txs sps u d - s.amount ∧
      allowanceRaw cfg txs (s :: sps) u d =
        allowanceRaw cfg txs sps u d -
          s.amount / ((cfg.end_date - d + 1 : ℤ) : ℚ) ∧
      allowanceValue cfg txs (s :: sps) u d ≤
        allowanceValue cfg txs sps u d) ∧
    ((s.date < cfg.start_date ∨ d ≤ s.date) →
      walkedBalance cfg txs (s :: sps) u d =
        walkedBalance cfg txs sps u d ∧
      handleDailyAllowance (some cfg) txs (s :: sps) u d =
        handleDailyAllowance (some cfg) txs sps u d) := by
  have hw1 := walkedBalance_eq cfg txs (s :: sps) u d h1 h2
  have hw2 := walkedBalance_eq cfg txs sps u d h1 h2
  have hcons := directSpent_cons s sps u cfg.start_date d
  constructor
  · intro hin
    have hb : (s.userId == u && decide (cfg.start_date ≤ s.date) &&
        decide (s.date < d)) = true := by
      simp only [Bool.and_eq_true, beq_iff_eq, decide_eq_true_eq]
      exact ⟨⟨hu, hin.1⟩, hin.2⟩
    have hds : directSpent (s :: sps) u cfg.start_date d =
        s.amount + directSpent sps u cfg.start_date d := by
      rw [hcons, if_pos hb]
    have hwb : walkedBalance cfg txs (s :: sps) u d =
        walkedBalance cfg txs sps u d - s.amount := by
      rw [hw1, hw2, hds]; ring
    have hraw : allowanceRaw cfg txs (s :: sps) u d =
        allowanceRaw cfg txs sps u d -
          s.amount / ((cfg.end_date - d + 1 : ℤ) : ℚ) := by
      rw [allowanceRaw, allowanceRaw, hwb, sub_div]
    refine ⟨hwb, hraw, ?_⟩
    have hrpos : (0 : ℚ) < ((cfg.end_date - d + 1 : ℤ) : ℚ) := by
      exact_mod_cast (by omega : (0 : ℤ) < cfg.end_date - d + 1)
    have hle : allowanceRaw cfg txs (s :: sps) u d ≤
        allowanceRaw cfg txs sps u d := by
      rw [hraw]
      have hnn : 0 ≤ s.amount / ((cfg.end_date - d + 1 : ℤ) : ℚ) :=
        div_nonneg ha hrpos.le
      linarith
    exact round2_mono hle
  · intro hout
    have hb : ¬((s.userId == u && decide (cfg.start_date ≤ s.date) &&
        decide (s.date < d)) = true) := by
      simp only [Bool.and_eq_true, beq_iff_eq, decide_eq_true_eq]
      rintro ⟨⟨_, hA⟩, hB⟩
      omega
    have hds : directSpent (s :: sps) u cfg.start_date d =
        directSpent sps u cfg.start_date d := by
      rw [hcons, if_neg hb, zero_add]
    have hwb : walkedBalance cfg txs (s :: sps) u d =
        walkedBalance cfg txs sps u d := by
      rw [hw1, hw2, hds]
    refine ⟨hwb, ?_⟩
    rw [handle_eq_direct cfg txs (s :: sps) u d h1 h2,
      handle_eq_direct cfg txs sps u d h1 h2, hds]

theorem claim_c3_witness :
    walkedBalance ⟨1000, 0, 0, 9⟩ [] [⟨"u", "s1", 1, 50⟩] "u" 4 =
      walkedBalance ⟨1000, 0, 0, 9⟩ [] [] "u" 4 - 50 :=
  ((claim_c3_amended ⟨1000, 0, 0, 9⟩ [] [] ⟨"u", "s1", 1, 50⟩ "u" 4
      (by decide) (by decide) rfl (by norm_num)).1
    ⟨by decide, by decide⟩).1

/-- C4, counterexample: with `start_money = end_money = 0`, window
`[0, 2]` and query date `0` (`remaining_days = 3`), adding an income
transaction of amount `1` moves the rounded result from `0.00` to `0.33`,
which differs from `1 / 3`: the rounded result does not increase by
exactly `A / remaining_days`. -/
theorem claim_c4_counterexample :
    handleDailyAllowance (some ⟨0, 0, 0, 2⟩)
        [⟨"u", "t1", 1, true, true⟩] [] "u" 0 = .ok (33 / 100) ∧
    handleDailyAllowance (some ⟨0, 0, 0, 2⟩) [] [] "u" 0 = .ok 0 ∧
    (33 / 100 : ℚ) - 0 ≠ 1 / (((2 : ℤ) - 0 + 1 : ℤ) : ℚ) := by
  refine ⟨?_, ?_, by norm_num⟩
  · rw [handle_eq_direct ⟨0, 0, 0, 2⟩ [⟨"u", "t1", 1, true, true⟩] []
        "u" 0 (by decide) (by decide)]
    norm_num [netBalance, directSpent, sumBy, round2, round_eq,
      List.filter]
  · rw [handle_eq_direct ⟨0, 0, 0, 2⟩ [] [] "u" 0 (by decide) (by decide)]
    norm_num [netBalance, directSpent, sumBy, round2, round_eq]

/-- C4, amended: adding an income Transaction of amount `A` for the
querying user increases the pre-rounding allowance by exactly
`A / remaining_days` with `remaining_days = (end_date - d) + 1`; the
returned value is that increased allowance rounded to 2 decimals. -/
theorem claim_c4_amended (cfg : Config) (t : Transaction)
    (txs : List Transaction) (sps : List Spending) (u : String) (d : ℤ)
    (h1 : cfg.start_date ≤ d) (h2 : d ≤ cfg.end_date)
    (hu : t.userId = u) (hi : t.isIncome = true) :
    allowanceRaw cfg (t :: txs) sps u d =
      allowanceRaw cfg txs sps u d +
        t.amount / ((cfg.end_date - d + 1 : ℤ) : ℚ) ∧
    handleDailyAllowance (some cfg) (t :: txs) sps u d =
      .ok (round2 (allowanceRaw cfg txs sps u d +
        t.amount / ((cfg.end_date - d + 1 : ℤ) : ℚ))) := by
  have hnb : netBalance cfg (t :: txs) u =
      netBalance cfg txs u + t.amount := by
    rw [netBalance_cons]
    simp [hu, hi]
  have hwb : walkedBalance cfg (t :: txs) sps u d =
      walkedBalance cfg txs sps u d + t.amount := by
    unfold walkedBalance
    rw [hnb, walk_add]
  have hraw : allowanceRaw cfg (t :: txs) sps u d =
      allowanceRaw cfg txs sps u d +
        t.amount / ((cfg.end_date - d + 1 : ℤ) : ℚ) := by
    rw [allowanceRaw, allowanceRaw, hwb, add_div]
  refine ⟨hraw, ?_⟩
  have hh : handleDailyAllowance (some cfg) (t :: txs) sps u d =
      if d < cfg.start_date ∨ d > cfg.end_date then .error .dateOutOfRange
      else .ok (allowanceValue cfg (t :: txs) sps u d) := rfl
  rw [hh, if_neg (by omega), allowanceValue, hraw]

theorem claim_c4_witness :
    allowanceRaw ⟨1000, 0, 0, 9⟩ [⟨"u", "t1", 30, true, true⟩] [] "u" 4 =
      allowanceRaw ⟨1000, 0, 0, 9⟩ [] [] "u" 4 +
        30 / (((9 : ℤ) - 4 + 1 : ℤ) : ℚ) :=
  (claim_c4_amended ⟨1000, 0, 0, 9⟩ ⟨"u", "t1", 30, true, true⟩ [] []
      "u" 4 (by decide) (by decide) rfl rfl).1

/-- C5, counterexample: with `start_money = 0.005`, `end_money = 0` and a
one-day window queried at `d = end_date`, `net_balance = 0.005` but the
endpoint returns `0.01` (the 2-decimal rounding), not `net_balance`
exactly. -/
theorem claim_c5_counterexample :
    netBalance ⟨1 / 200, 0, 0, 0⟩ [] "u" = 1 / 200 ∧
    handleDailyAllowance (some ⟨1 / 200, 0, 0, 0⟩) [] [] "u" 0 =
      .ok (1 / 100) ∧
    (1 / 100 : ℚ) ≠ 1 / 200 := by
  refine ⟨by norm_num [netBalance, sumBy], ?_, by norm_num⟩
  rw [handle_eq_direct ⟨1 / 200, 0, 0, 0⟩ [] [] "u" 0
      (by decide) (by decide)]
  norm_num [netBalance, directSpent, sumBy, round2, round_eq]

/-- C5, amended: querying `d = end_date` with zero spendings yields
`net_balance` rounded to 2 decimals (`remaining_days = 1`); it equals
`net_balance` exactly whenever `net_balance` is an integer multiple of
`0.01`. -/
theorem claim_c5_amended (cfg : Config) (txs : List Transaction)
    (u : String) (h1 : cfg.start_date ≤ cfg.end_date) :
    handleDailyAllowance (some cfg) txs [] u cfg.end_date =
      .ok (round2 (netBalance cfg txs u)) ∧
    (∀ k : ℤ, netBalance cfg txs u = (k : ℚ) / 100 →
      handleDailyAllowance (some cfg) txs [] u cfg.end_date =
        .ok (netBalance cfg txs u)) := by
  have hmain : handleDailyAllowance (some cfg) txs [] u cfg.end_date =
      .ok (round2 (netBalance cfg txs u)) := by
    rw [handle_eq_direct cfg txs [] u cfg.end_date h1 le_rfl]
    have hd : directSpent [] u cfg.start_date cfg.end_date = 0 := rfl
    have hr : (cfg.end_date - cfg.end_date + 1 : ℤ) = 1 := by omega
    rw [hd, sub_zero, hr]
    norm_num
  refine ⟨hmain, fun k hk => ?_⟩
  rw [hmain, hk, round2_hundredth]

theorem claim_c5_witness :
    handleDailyAllowance (some ⟨1000, 0, 0, 9⟩) [] [] "u" 9 =
      .ok (netBalance ⟨1000, 0, 0, 9⟩ [] "u") :=
  (claim_c5_amended ⟨1000, 0, 0, 9⟩ [] "u" (by decide)).2 100000
    (by norm_num [netBalance, sumBy])

/-- C8: deleting a Transaction or Spending whose id exists in the store
but belongs to a different owner answers `notFound` (exactly as if the
record did not exist), and the store contents are unchanged by the failed
delete. -/
theorem claim_c8 (txStore : List Transaction) (spStore : List Spending)
    (u tid sid : String)
    (_ht1 : ∃ t ∈ txStore, t.transactionid = tid)
    (ht2 : ∀ t ∈ txStore, t.transactionid = tid → t.userId ≠ u)
    (_hs1 : ∃ s ∈ spStore, s.spendingid = sid)
    (hs2 : ∀ s ∈ spStore, s.spendingid = sid → s.userId ≠ u) :
    deleteTransaction txStore u tid = (.notFound, txStore) ∧
    deleteSpending spStore u sid = (.notFound, spStore) := by
  have hf1 : txStore.filter
      (fun t => !(t.transactionid == tid && t.userId == u)) = txStore := by
    apply List.filter_eq_self.mpr
    intro t htm
    by_cases hid : t.transactionid = tid
    · have hne := ht2 t htm hid
      simp [hid, hne]
    · simp [hid]
  have hf2 : spStore.filter
      (fun s => !(s.spendingid == sid && s.userId == u)) = spStore := by
    apply List.filter_eq_self.mpr
    intro s hsm
    by_cases hid : s.spendingid = sid
    · have hne := hs2 s hsm hid
      simp [hid, hne]
    · simp [hid]
  constructor
  · simp only [deleteTransaction]
    rw [hf1]
    simp
  · simp only [deleteSpending]
    rw [hf2]
    simp

theorem claim_c8_witness :
    deleteTransaction [⟨"owner2", "t1", 5, true, true⟩] "me" "t1" =
      (.notFound, [⟨"owner2", "t1", 5, true, true⟩]) ∧
    deleteSpending [⟨"owner2", "s1", 3, 7⟩] "me" "s1" =
      (.notFound, [⟨"owner2", "s1", 3, 7⟩]) :=
  claim_c8 [⟨"owner2", "t1", 5, true, true⟩] [⟨"owner2", "s1", 3, 7⟩]
    "me" "t1" "s1"
    ⟨⟨"owner2", "t1", 5, true, true⟩, by simp, rfl⟩
    (by
      rintro t htm -
      simp only [List.mem_singleton] at htm
      subst htm
      decide)
    ⟨⟨"owner2", "s1", 3, 7⟩, by simp, rfl⟩
    (by
      rintro s hsm -
      simp only [List.mem_singleton] at hsm
      subst hsm
      decide)

/-- C9: the records stored by the create endpoints carry the
authenticated caller's identity as owner and the server-generated id, for
every request body — client-supplied values of those fields are
overwritten by the spread (`{ ...req.body, <id>, <owner> }`) in both
variants. -/
theorem claim_c9 (body : JSRecord) (rid user : String) :
    mkStoredTransaction body rid user ("userId") = some (.str user) ∧
    mkStoredTransaction body rid user ("transactionid") = some (.str rid) ∧
    mkStoredSpending body rid user ("userId") = some (.str user) ∧
    mkStoredSpending body rid user ("spendingid") = some (.str rid) ∧
    mkHostedRecord body rid user ("user_id") = some (.str user) ∧
    mkHostedRecord body rid user ("id") = some (.str rid) := by
  refine ⟨rfl, ?_, rfl, ?_, rfl, ?_⟩ <;>
    simp [mkStoredTransaction, mkStoredSpending, mkHostedRecord, setField]

/-- C10, counterexample: the two storage-backend variants classify income
by different fields (`t.isIncome` vs `t.is_income`): on a record with
`isIncome = true` and `is_income = false` the flat-file variant returns
`1.00` and the hosted variant `-1.00` on otherwise identical data. -/
theorem claim_c10_counterexample :
    Transaction.isIncome ⟨"u", "t1", 1, true, false⟩ ≠
      Transaction.is_income ⟨"u", "t1", 1, true, false⟩ ∧
    handleDailyAllowance (some ⟨0, 0, 0, 0⟩)
        [⟨"u", "t1", 1, true, false⟩] [] "u" 0 = .ok 1 ∧
    handleDailyAllowanceHosted (some ⟨0, 0, 0, 0⟩)
        [⟨"u", "t1", 1, true, false⟩] [] "u" 0 = .ok (-1) ∧
    (Except.ok (1 : ℚ) : Except DAError ℚ) ≠ .ok (-1) := by
  refine ⟨by decide, ?_, ?_, by simp; norm_num⟩
  · rw [handle_eq_direct ⟨0, 0, 0, 0⟩ [⟨"u", "t1", 1, true, false⟩] []
        "u" 0 (by decide) (by decide)]
    norm_num [netBalance, directSpent, sumBy, round2, round_eq,
      List.filter]
  · have hh : handleDailyAllowanceHosted (some ⟨0, 0, 0, 0⟩)
        [⟨"u", "t1", 1, true, false⟩] [] "u" 0 =
        if (0 : ℤ) < 0 ∨ (0 : ℤ) > 0 then .error .dateOutOfRange
        else .ok (allowanceValueHosted ⟨0, 0, 0, 0⟩
          ([⟨"u", "t1", 1, true, false⟩].filter
            (fun t => t.userId == "u"))
          (([] : List Spending).filter (fun s => s.userId == "u")) 0) :=
      rfl
    rw [hh, if_neg (by decide)]
    norm_num [allowanceValueHosted, allowanceRawHosted,
      walkedBalanceHosted, walk, netBalanceHosted, sumBy, round2,
      round_eq, List.filter]

/-- C10, amended: on identical config, transaction set and spending set,
the two variants' daily-allowance endpoints agree whenever every
transaction's `isIncome` field equals its `is_income` field; they can
differ when the two spellings disagree on some record. -/
theorem claim_c10_amended (cfg : Config) (txs : List Transaction)
    (sps : List Spending) (u : String) (d : ℤ)
    (hflag : ∀ t ∈ txs, t.isIncome = t.is_income) :
    handleDailyAllowance (some cfg) txs sps u d =
      handleDailyAllowanceHosted (some cfg) txs sps u d := by
  have hnet : netBalance cfg txs u =
      netBalanceHosted cfg (txs.filter (fun t => t.userId == u)) := by
    unfold netBalance netBalanceHosted
    congr 1
    apply sumBy_congr
    intro t htm
    rw [hflag t (List.mem_of_mem_filter htm)]
  have hspent : ∀ c, spentOn sps u c =
      spentOnHosted (sps.filter (fun s => s.userId == u)) c := by
    intro c
    unfold spentOn spentOnHosted
    rw [List.filter_filter]
    congr 1
    apply List.filter_congr
    intro s _
    exact Bool.and_comm _ _
  have hwb : walkedBalance cfg txs sps u d =
      walkedBalanceHosted cfg (txs.filter (fun t => t.userId == u))
        (sps.filter (fun s => s.userId == u)) d := by
    unfold walkedBalance walkedBalanceHosted
    rw [hnet]
    exact walk_congr _ _ _ hspent _ _ _
  have hval : allowanceValue cfg txs sps u d =
      allowanceValueHosted cfg (txs.filter (fun t => t.userId == u))
        (sps.filter (fun s => s.userId == u)) d := by
    unfold allowanceValue allowanceRaw allowanceValueHosted
      allowanceRawHosted
    rw [hwb]
  have hflat : handleDailyAllowance (some cfg) txs sps u d =
      if d < cfg.start_date ∨ d > cfg.end_date then .error .dateOutOfRange
      else .ok (allowanceValue cfg txs sps u d) := rfl
  have hhost : handleDailyAllowanceHosted (some cfg) txs sps u d =
      if d < cfg.start_date ∨ d > cfg.end_date then .error .dateOutOfRange
      else .ok (allowanceValueHosted cfg
        (txs.filter (fun t => t.userId == u))
        (sps.filter (fun s => s.userId == u)) d) := rfl
  rw [hflat, hhost, hval]

theorem claim_c10_witness :
    handleDailyAllowance (some ⟨1000, 0, 0, 9⟩)
        [⟨"u", "t1", 7, true, true⟩] [⟨"u", "s1", 1, 50⟩] "u" 4 =
      handleDailyAllowanceHosted (some ⟨1000, 0, 0, 9⟩)
        [⟨"u", "t1", 7, true, true⟩] [⟨"u", "s1", 1, 50⟩] "u" 4 :=
  claim_c10_amended ⟨1000, 0, 0, 9⟩ [⟨"u", "t1", 7, true, true⟩]
    [⟨"u", "s1", 1, 50⟩] "u" 4 (by decide)
